import Mathlib

/-!
Shallow embedding of the revision-specifier resolution engine of
`git-repository/src/rev_spec/parse.rs`, together with proofs about the
claims of its specification.

Machine integers do not occur in the embedded fragment; object ids are
opaque and modelled as naturals.  Hash prefixes carry only their literal
hex text, whose length models `Prefix::hex_len()`.  The names `pfx` and
`Pfx` throughout abbreviate the source's word for a partial hash string.
-/

namespace RevParse

/-- Object ids are opaque, totally ordered values (`git_hash::ObjectId`). -/
abbrev ObjectId := Nat

/-- Object kinds, mirroring `git_object::Kind`. -/
inductive Kind where
  | Tree
  | Blob
  | Commit
  | Tag
deriving DecidableEq, Repr

/-- A partial hex hash (`git_hash::Prefix`): the literal hex text. -/
structure HashPfx where
  hex : String
deriving DecidableEq, Repr

/-- Mirrors `Prefix::hex_len()`: the number of hex digits of the partial hash. -/
def HashPfx.hexLen (p : HashPfx) : Nat := p.hex.length

/-- Mirrors `Prefix::to_string()`: rendering the partial hash as text. -/
def HashPfx.toText (p : HashPfx) : String := p.hex

/-- A reference target (`git_ref::Target`): direct object id or symbolic name. -/
inductive RefTarget where
  | direct (id : ObjectId)
  | symbolic (name : String)
deriving DecidableEq, Repr

/-- Mirrors `Target::try_id()`: the id of a direct target. -/
def RefTarget.tryId : RefTarget → Option ObjectId
  | RefTarget.direct id => some id
  | RefTarget.symbolic _ => none

/-- A resolved reference record (`git_ref::Reference`), name plus target. -/
structure Reference where
  name : String
  target : RefTarget
deriving DecidableEq, Repr

/-- Mirrors `object::find::existing::OdbError`: an object-database failure,
either a lookup error or a missing object. -/
inductive OdbError where
  | find (msg : String)
  | notFound (oid : ObjectId)
deriving DecidableEq, Repr

/-- Mirrors `error::CandidateInfo`: per-candidate diagnostic info carried by
the ambiguous-prefix error. -/
inductive CandidateInfo where
  | findError (msg : String)
  | object (kind : Kind)
  | tag (name : String)
  | commit (date : Nat) (subject : String)
deriving DecidableEq, Repr

/-- The error type of the resolution engine, mirroring `Error` in
`rev_spec/parse.rs` variant by variant. -/
inductive Error where
  | ambiguousRefAndObject (pfx : HashPfx) (reference : Reference)
  | idFromHex (msg : String)
  | findReference (name : String)
  | findObject (err : OdbError)
  | peelToKind (oid : ObjectId) (expected : Kind)
  | objectKind (oid : ObjectId) (actual : Kind) (expected : Kind)
  | parseError (msg : String)
  | pfxNotFound (pfx : HashPfx)
  | ambiguousPfx (pfx : HashPfx) (info : List (ObjectId × CandidateInfo))
  | multi (current : Error) (next : Option Error)

/-- Rendering of object kinds used inside error messages. -/
def Kind.toText : Kind → String
  | Kind.Tree => "tree"
  | Kind.Blob => "blob"
  | Kind.Commit => "commit"
  | Kind.Tag => "tag"

/-- The displayed message of an error, following the `thiserror` display
attributes of `Error`; in particular `Multi` displays only its `current`
message while the chain stays walkable via `next`. -/
def Error.message : Error → String
  | Error.ambiguousRefAndObject p r =>
      "The short hash " ++ p.hex ++ " matched both the reference " ++ r.name
        ++ " and at least one object"
  | Error.idFromHex m => m
  | Error.findReference n => "Could not find reference " ++ n
  | Error.findObject (OdbError.find m) => "Object lookup failed: " ++ m
  | Error.findObject (OdbError.notFound oid) =>
      "Object " ++ toString oid ++ " could not be found"
  | Error.peelToKind oid k =>
      "Object " ++ toString oid ++ " could not be peeled to a " ++ k.toText
  | Error.objectKind oid a e =>
      "Object " ++ toString oid ++ " was a " ++ a.toText
        ++ ", but needed it to be a " ++ e.toText
  | Error.parseError m => m
  | Error.pfxNotFound p => "An object prefixed " ++ p.hex ++ " could not be found"
  | Error.ambiguousPfx p _ => "Found the following objects prefixed with " ++ p.hex
  | Error.multi current _ => current.message

/-- The wrapping loop of `Error::from_errors`: starting from the chain built
so far, wrap each further (older) error around it. -/
def buildMulti : Error → List Error → Error
  | recent, [] => recent
  | recent, e :: rest => buildMulti (Error.multi e (some recent)) rest

/-- Mirrors `Error::from_errors`: collapse an ordered error list (oldest
first) into one reportable error.  The empty list is the source's
`assert!`/`unreachable!` panic, modelled as `none`.  A single error is
returned unchanged; otherwise the list is reversed (newest first) and the
newest error becomes the innermost link of a `Multi` chain, each older
error wrapping the chain built so far. -/
def Error.from_errors (errors : List Error) : Option Error :=
  match errors with
  | [] => none
  | [e] => some e
  | _ :: _ :: _ =>
    match errors.reverse with
    | [] => none
    | newest :: rest => some (buildMulti (Error.multi newest none) rest)

/-- A stored object, as far as the engine inspects it: its kind and the id it
dereferences to when peeled one step (a tag's tagged object, a commit's
tree).  Trees and blobs dereference to nothing. -/
structure Obj where
  kind : Kind
  target : Option ObjectId
deriving DecidableEq, Repr

/-- Result of `odb.lookup_prefix`: a database failure, no match, or the
(non-empty) set of candidate ids filled into the output set. -/
inductive PfxLookup where
  | lookupError (msg : String)
  | noMatch
  | matches (candidates : List ObjectId)
deriving DecidableEq, Repr

/-- The external collaborators of one resolution call: the reference store,
the object database's prefix lookup and object retrieval, and the
repository's full hash width in hex digits (every stored id shares the
repository's hash kind, so `id.kind().len_in_hex()` is this constant). -/
structure Repository where
  refsFind : String → Option Reference
  lookupPfx : HashPfx → PfxLookup
  findObject : ObjectId → Option Obj
  hashHexLen : Nat

/-- Modelled from the spec: the object database's `peel_to_kind` collaborator
(`object::peel::to_kind`, outside the sampled sources).  Repeatedly
dereference — a tag to its tagged object, a commit to its tree when a tree
is wanted — until an object of the wanted kind is reached or dereferencing
is impossible; `fuel` bounds the dereferencing depth. -/
def peelToKind (repo : Repository) : Nat → ObjectId → Obj → Kind → Except Error ObjectId
  | 0, oid, o, k =>
    if o.kind = k then Except.ok oid
    else Except.error (Error.peelToKind oid k)
  | fuel + 1, oid, o, k =>
    if o.kind = k then Except.ok oid
    else
      match o.kind, o.target with
      | Kind.Tag, some t =>
        match repo.findObject t with
        | none => Except.error (Error.findObject (OdbError.notFound t))
        | some o2 => peelToKind repo fuel t o2 k
      | Kind.Commit, some t =>
        if k = Kind.Tree then
          match repo.findObject t with
          | none => Except.error (Error.findObject (OdbError.notFound t))
          | some o2 => peelToKind repo fuel t o2 k
        else Except.error (Error.peelToKind oid k)
      | _, _ => Except.error (Error.peelToKind oid k)

/-- Mirrors the free function `peel`: retrieve the object (failing with a
`FindObject` error if absent) and peel it to the wanted kind. -/
def peel (repo : Repository) (fuel : Nat) (obj : ObjectId) (kind : Kind) :
    Except Error ObjectId :=
  match repo.findObject obj with
  | none => Except.error (Error.findObject (OdbError.notFound obj))
  | some o => peelToKind repo fuel obj o kind

/-- Mirrors the free function `require_object_kind`: retrieve the object
(failing with a `FindObject` error if absent) and require its own kind to
equal `kind` exactly. -/
def require_object_kind (repo : Repository) (obj : ObjectId) (kind : Kind) :
    Except Error Unit :=
  match repo.findObject obj with
  | none => Except.error (Error.findObject (OdbError.notFound obj))
  | some o =>
    if o.kind = kind then Except.ok ()
    else Except.error (Error.objectKind obj o.kind kind)

/-- `HashSet::remove`: drop an element from a candidate set. -/
def setRemove (l : List ObjectId) (x : ObjectId) : List ObjectId :=
  l.filter (fun y => y ≠ x)

/-- `HashSet::insert`: add an element to a candidate set if absent. -/
def setInsert (l : List ObjectId) (x : ObjectId) : List ObjectId :=
  if x ∈ l then l else l ++ [x]

/-- A per-side pair, mirroring the delegate's `[T; 2]` arrays
(index 0 = "from", index 1 = "to"). -/
def Sides (α : Type) : Type := α × α

/-- Read the slot of side `i` of a two-sided array. -/
def getS {α : Type} (p : Sides α) (i : Fin 2) : α :=
  if i.val = 0 then p.1 else p.2

/-- Replace the slot of side `i` of a two-sided array. -/
def setS {α : Type} (p : Sides α) (i : Fin 2) (a : α) : Sides α :=
  if i.val = 0 then (a, p.2) else (p.1, a)

/-- Mirrors `RefsHint`: what to do if refs and object names are equal. -/
inductive RefsHint where
  | PreferObjectOnFullLengthHexShaUseRefOtherwise
  | PreferObject
  | PreferRef
  | Fail
deriving DecidableEq, Repr

/-- Mirrors `ObjectKindHint`: which object kind to prefer if multiple
objects match a prefix. -/
inductive ObjectKindHint where
  | Commit
  | Committish
  | Tree
  | Treeish
  | Blob
deriving DecidableEq, Repr

/-- Mirrors `git_revision::spec::Kind`: the operator connecting the sides. -/
inductive SpecKind where
  | Single
  | Range
  | MergeBase
deriving DecidableEq, Repr

/-- Mirrors `Options`: the configuration surface of one resolution call. -/
structure Options where
  refs_hint : RefsHint
  object_kind_hint : Option ObjectKindHint
deriving DecidableEq, Repr

/-- Mirrors `delegate::PeelTo`: the target of a peeling callback. -/
inductive PeelTo where
  | ValidObject
  | ObjectKind (kind : Kind)
  | Path (path : String)
  | RecursiveTagObject
deriving DecidableEq, Repr

/-- Outcome of one delegate callback: `ok` and `failed` model the source's
`Some(())` and `None` returns; `panicked` models an `assert!`, `expect` or
`todo!` abort. -/
inductive COutcome where
  | ok
  | failed
  | panicked
deriving DecidableEq, Repr

/-- The mutable state of the resolution `Delegate`, field by field: per-side
reference slots, per-side candidate sets, the active side index, the range
kind, the configuration, the ordered error log (oldest first), the per-side
recorded hash prefixes, and the per-side disambiguation flags. -/
structure DState where
  refs : Sides (Option Reference)
  objs : Sides (Option (List ObjectId))
  idx : Fin 2
  kind : Option SpecKind
  opts : Options
  err : List Error
  pfx : Sides (Option HashPfx)
  last_call_was_disambiguate_pfx : Sides Bool

/-- Mirrors `Delegate::unset_disambiguate_call`: clear the active side's
disambiguation flag. -/
def unset_disambiguate_call (s : DState) : DState :=
  { s with
    last_call_was_disambiguate_pfx := setS s.last_call_was_disambiguate_pfx s.idx false }

/-- Candidate-indexed errors of a per-candidate check, in candidate order:
the pairs (candidate, error) of the candidates the check rejects — the
contents of the `errors` vector the source accumulates while iterating a
candidate set. -/
def checkErrs {β : Type} (check : ObjectId → Except Error β)
    (objs : List ObjectId) : List (ObjectId × Error) :=
  objs.filterMap (fun o =>
    match check o with
    | Except.error e => some (o, e)
    | Except.ok _ => none)

/-- Candidate-indexed replacements of a per-candidate check, in candidate
order: the pairs (candidate, result) of the candidates the check accepts —
the contents of the `replacements` vector the source accumulates. -/
def checkReps (check : ObjectId → Except Error ObjectId)
    (objs : List ObjectId) : List (ObjectId × ObjectId) :=
  objs.filterMap (fun o =>
    match check o with
    | Except.ok r => some (o, r)
    | Except.error _ => none)

/-- Mirrors `Delegate::find_ref`: clear the disambiguation flag; bail out
early when errors were already recorded and the side's reference slot is
occupied; otherwise look the name up in the reference store, recording a
`FindReference` error on failure and storing the reference on success (a
second direct set of the same slot is the source's fatal assertion). -/
def find_ref (repo : Repository) (name : String) (s : DState) : COutcome × DState :=
  let s := unset_disambiguate_call s
  if !s.err.isEmpty && (getS s.refs s.idx).isSome then (COutcome.failed, s)
  else
    match repo.refsFind name with
    | some r =>
      if (getS s.refs s.idx).isSome then (COutcome.panicked, s)
      else (COutcome.ok, { s with refs := setS s.refs s.idx (some r) })
    | none => (COutcome.failed, { s with err := s.err ++ [Error.findReference name] })

/-- The unconditional head of `Delegate::disambiguate_prefix`: set the active
side's disambiguation flag and record the prefix, before any lookup. -/
def pfxTouched (p : HashPfx) (s : DState) : DState :=
  { s with
    last_call_was_disambiguate_pfx := setS s.last_call_was_disambiguate_pfx s.idx true,
    pfx := setS s.pfx s.idx (some p) }

/-- The reference-consulting arm of `Delegate::disambiguate_prefix` (policies
`PreferRef`, the default on a non-full-length prefix, and `Fail`): look the
literal prefix text up as a reference name; if found, keep the reference —
under `Fail` additionally record the ambiguous-ref-and-object and the
ambiguous-prefix errors and fail — and if not found keep the object
candidate set. -/
def disambiguatePfxRefLookup (repo : Repository) (p : HashPfx)
    (candidates : List ObjectId) (s : DState) : COutcome × DState :=
  match repo.refsFind p.toText with
  | some ref_ =>
    if (getS s.refs s.idx).isSome then (COutcome.panicked, s)
    else if s.opts.refs_hint = RefsHint.Fail then
      (COutcome.failed,
        { s with
          refs := setS s.refs s.idx (some ref_),
          err := s.err ++ [Error.ambiguousRefAndObject p ref_,
            Error.ambiguousPfx p []] })
    else (COutcome.ok, { s with refs := setS s.refs s.idx (some ref_) })
  | none => (COutcome.ok, { s with objs := setS s.objs s.idx (some candidates) })

/-- Mirrors `Delegate::disambiguate_prefix`: flag and record the prefix, query
the object database, record a lookup or not-found error on failure, and on
one or more matches apply the configured ref/object preference policy.  A
pre-populated candidate set, and an empty match set reaching the
full-length guard, are the source's fatal assertions. -/
def disambiguate_pfx (repo : Repository) (p : HashPfx) (s : DState) :
    COutcome × DState :=
  let s := pfxTouched p s
  match repo.lookupPfx p with
  | PfxLookup.lookupError msg =>
    (COutcome.failed, { s with err := s.err ++ [Error.findObject (OdbError.find msg)] })
  | PfxLookup.noMatch =>
    (COutcome.failed, { s with err := s.err ++ [Error.pfxNotFound p] })
  | PfxLookup.matches candidates =>
    if (getS s.objs s.idx).isSome then (COutcome.panicked, s)
    else
      match s.opts.refs_hint with
      | RefsHint.PreferObjectOnFullLengthHexShaUseRefOtherwise =>
        match candidates.head? with
        | none => (COutcome.panicked, s)
        | some _ =>
          if p.hexLen = repo.hashHexLen then
            (COutcome.ok, { s with objs := setS s.objs s.idx (some candidates) })
          else disambiguatePfxRefLookup repo p candidates s
      | RefsHint.PreferObject =>
        (COutcome.ok, { s with objs := setS s.objs s.idx (some candidates) })
      | RefsHint.PreferRef => disambiguatePfxRefLookup repo p candidates s
      | RefsHint.Fail => disambiguatePfxRefLookup repo p candidates s

/-- One side of `Delegate::follow_refs_to_objects_if_needed`: a side with a
resolved reference and no candidate set gains the reference's direct target
as a one-element set; following a symbolic reference is the source's
`todo!`, modelled as `none`. -/
def followSide (r : Option Reference) (obj : Option (List ObjectId)) :
    Option (Option (List ObjectId)) :=
  match r, obj with
  | some ref_, none =>
    match ref_.target.tryId with
    | some id => some (some (setInsert [] id))
    | none => none
  | _, some o => some (some o)
  | none, none => some none

/-- Mirrors `Delegate::follow_refs_to_objects_if_needed`: run `followSide`
over both sides; `none` models the `todo!` abort on a symbolic reference. -/
def follow_refs_to_objects_if_needed (s : DState) : Option DState :=
  match followSide s.refs.1 s.objs.1 with
  | none => none
  | some o0 =>
    match followSide s.refs.2 s.objs.2 with
    | none => none
    | some o1 => some { s with objs := (o0, o1) }

/-- The per-candidate check `Delegate::peel_until` performs for the two
supported targets: existence for `ValidObject` (keeping the candidate
itself), peeling for `ObjectKind`.  The unsupported targets are mapped to
an arbitrary error; theorems never rely on those branches. -/
def peelCheck (repo : Repository) (fuel : Nat) (pk : PeelTo) (o : ObjectId) :
    Except Error ObjectId :=
  match pk with
  | PeelTo.ValidObject =>
    match repo.findObject o with
    | some _ => Except.ok o
    | none => Except.error (Error.findObject (OdbError.notFound o))
  | PeelTo.ObjectKind k => peel repo fuel o k
  | PeelTo.Path _ => Except.error (Error.peelToKind o Kind.Blob)
  | PeelTo.RecursiveTagObject => Except.error (Error.peelToKind o Kind.Blob)

/-- The closing dichotomy of `Delegate::peel_until`: if every candidate
failed, append all recorded errors and fail with the set untouched;
otherwise drop the failed candidates, append their errors as context,
replace each peeled original by its peeled id, and succeed. -/
def peelFinish (errors : List (ObjectId × Error))
    (replacements : List (ObjectId × ObjectId)) (objs : List ObjectId)
    (s : DState) : COutcome × DState :=
  if errors.length = objs.length then
    (COutcome.failed, { s with err := s.err ++ errors.map Prod.snd })
  else
    let objs2 := errors.foldl (fun acc pr => setRemove acc pr.1) objs
    let objs3 := replacements.foldl
      (fun acc pr => setInsert (setRemove acc pr.1) pr.2) objs2
    (COutcome.ok,
      { s with
        objs := setS s.objs s.idx (some objs3),
        err := s.err ++ errors.map Prod.snd })

/-- Mirrors `Delegate::peel_until`: clear the disambiguation flag, fold
references to objects (a symbolic reference is the source's `todo!`,
modelled as `panicked`), bail out if the active side has no candidate set,
then check every candidate — existence for `ValidObject`, peeling for
`ObjectKind` — and close with the all-fail/some-survive dichotomy.  The
`Path` and `RecursiveTagObject` targets are the source's `todo!`s. -/
def peel_until (repo : Repository) (fuel : Nat) (pk : PeelTo) (s : DState) :
    COutcome × DState :=
  let s := unset_disambiguate_call s
  match follow_refs_to_objects_if_needed s with
  | none => (COutcome.panicked, s)
  | some s =>
    match getS s.objs s.idx with
    | none => (COutcome.failed, s)
    | some objs =>
      match pk with
      | PeelTo.Path _ => (COutcome.panicked, s)
      | PeelTo.RecursiveTagObject => (COutcome.panicked, s)
      | PeelTo.ValidObject =>
        peelFinish (checkErrs (peelCheck repo fuel PeelTo.ValidObject) objs) [] objs s
      | PeelTo.ObjectKind k =>
        peelFinish (checkErrs (peelCheck repo fuel (PeelTo.ObjectKind k)) objs)
          (checkReps (peelCheck repo fuel (PeelTo.ObjectKind k)) objs) objs s

/-- The per-candidate check of the fallback kind disambiguation: partial-match
peeling for `Committish`/`Treeish`, exact own-kind equality for
`Commit`/`Tree`/`Blob`. -/
def hintCheck (repo : Repository) (fuel : Nat) (h : ObjectKindHint)
    (o : ObjectId) : Except Error Unit :=
  match h with
  | ObjectKindHint.Committish => (peel repo fuel o Kind.Commit).map (fun _ => ())
  | ObjectKindHint.Treeish => (peel repo fuel o Kind.Tree).map (fun _ => ())
  | ObjectKindHint.Commit => require_object_kind repo o Kind.Commit
  | ObjectKindHint.Tree => require_object_kind repo o Kind.Tree
  | ObjectKindHint.Blob => require_object_kind repo o Kind.Blob

/-- Mirrors `Delegate::disambiguate_objects_by_fallback_hint`: if the active
side's disambiguation flag is still set, clear it; then, if that side has a
candidate set and an object kind hint is configured, check every candidate
(peeling for `Committish`/`Treeish`, exact kind for the rest); if every
candidate failed, append all errors with the set untouched, otherwise drop
the failed candidates and append their errors. -/
def disambiguate_objects_by_fallback_hint (repo : Repository) (fuel : Nat)
    (s : DState) : DState :=
  if getS s.last_call_was_disambiguate_pfx s.idx then
    let s1 := unset_disambiguate_call s
    match getS s1.objs s1.idx with
    | none => s1
    | some objs =>
      match s1.opts.object_kind_hint with
      | none => s1
      | some kindHint =>
        let errors : List (ObjectId × Error) :=
          checkErrs (hintCheck repo fuel kindHint) objs
        if errors.length = objs.length then
          { s1 with err := s1.err ++ errors.map Prod.snd }
        else
          let objs2 := errors.foldl (fun acc pr => setRemove acc pr.1) objs
          { s1 with
            objs := setS s1.objs s1.idx (some objs2),
            err := s1.err ++ errors.map Prod.snd }
  else s

/-- Mirrors `parse::Delegate::done`: run reference folding, then fallback
kind disambiguation; `none` models the `todo!` abort on a symbolic
reference. -/
def done (repo : Repository) (fuel : Nat) (s : DState) : Option DState :=
  (follow_refs_to_objects_if_needed s).map
    (disambiguate_objects_by_fallback_hint repo fuel)

/-- Mirrors `Error::ambiguous`: build the ambiguous-prefix error for a
candidate set.  The source discards both the candidates and the repository
and installs an empty diagnostic-info list. -/
def Error.ambiguous (candidates : List ObjectId) (p : HashPfx)
    (repo : Repository) : Error :=
  Error.ambiguousPfx p []

/-- Classification of one side inside
`zero_or_one_objects_or_ambguity_err`: an absent set resolves to nothing, a
present empty set is the source's `unreachable!`, a singleton resolves, and
anything larger is ambiguous. -/
inductive SideOutcome where
  | panicked
  | resolved (o : Option ObjectId)
  | ambiguous (cs : List ObjectId)

/-- Classify one side's candidate set for final reduction. -/
def sideReduce (cands : Option (List ObjectId)) : SideOutcome :=
  match cands with
  | none => SideOutcome.resolved none
  | some [] => SideOutcome.panicked
  | some [o] => SideOutcome.resolved (some o)
  | some cs => SideOutcome.ambiguous cs

/-- Mirrors the driver helper `zero_or_one_objects_or_ambguity_err` (the
source's spelling): reduce each side in order to at most one id; on an
ambiguous side, build the ambiguous-prefix error from the side's recorded
prefix, place it in front of the accumulated errors, and fail with the
aggregate.  `none` models the source's `unreachable!`/`expect` panics (an
empty-but-present set, or a missing prefix record on an ambiguous side). -/
def zero_or_one_objects_or_ambguity_err (cands : Sides (Option (List ObjectId)))
    (pfxs : Sides (Option HashPfx)) (errors : List Error) (repo : Repository) :
    Option (Except Error (Sides (Option ObjectId))) :=
  match sideReduce cands.1 with
  | SideOutcome.panicked => none
  | SideOutcome.ambiguous cs =>
    match pfxs.1 with
    | none => none
    | some p => (Error.from_errors (Error.ambiguous cs p repo :: errors)).map Except.error
  | SideOutcome.resolved o0 =>
    match sideReduce cands.2 with
    | SideOutcome.panicked => none
    | SideOutcome.ambiguous cs =>
      match pfxs.2 with
      | none => none
      | some p => (Error.from_errors (Error.ambiguous cs p repo :: errors)).map Except.error
    | SideOutcome.resolved o1 => some (Except.ok (o0, o1))

/-- The side other than `i` of a two-sided array. -/
def otherSide (i : Fin 2) : Fin 2 := if i.val = 0 then 1 else 0

/-- A fresh delegate state, as built at the start of `from_bstr`. -/
def mkState (opts : Options) : DState :=
  { refs := (none, none)
    objs := (none, none)
    idx := 0
    kind := none
    opts := opts
    err := []
    pfx := (none, none)
    last_call_was_disambiguate_pfx := (false, false) }

/-- A repository with empty stores, for inputs whose lookups must fail. -/
def repoTrivial : Repository :=
  { refsFind := fun _ => none
    lookupPfx := fun _ => PfxLookup.noMatch
    findObject := fun _ => none
    hashHexLen := 40 }

/-- A small object graph: a tag (1) on a commit (2) whose tree is 3, and a
lone blob (5); no references. -/
def exRepo : Repository :=
  { refsFind := fun _ => none
    lookupPfx := fun _ => PfxLookup.noMatch
    findObject := fun o =>
      if o = 1 then some { kind := Kind.Tag, target := some 2 }
      else if o = 2 then some { kind := Kind.Commit, target := some 3 }
      else if o = 3 then some { kind := Kind.Tree, target := none }
      else if o = 5 then some { kind := Kind.Blob, target := none }
      else none
    hashHexLen := 40 }

/-- A reference named like a two-digit prefix, for ref/object collisions. -/
def exRef : Reference := { name := "ab", target := RefTarget.direct 9 }

/-- A repository whose full hash width is 4, holding `exRef` under the name
"ab" and matching every prefix lookup with the single object 3. -/
def exRepoC2 : Repository :=
  { refsFind := fun n => if n = "ab" then some exRef else none
    lookupPfx := fun _ => PfxLookup.matches [3]
    findObject := fun _ => none
    hashHexLen := 4 }

/-- Delegate state for the default-policy witness. -/
def exStateC2 : DState :=
  mkState { refs_hint := RefsHint.PreferObjectOnFullLengthHexShaUseRefOtherwise
            object_kind_hint := none }

/-- Delegate state for the fail-on-ambiguity witness. -/
def exStateC6 : DState :=
  mkState { refs_hint := RefsHint.Fail, object_kind_hint := none }

/-- Delegate state refuting the both-sides reading of the fallback pass:
the active side is 0, while side 1 still has its disambiguation flag set
and holds the sole candidate 5 (a blob) under a committish hint. -/
def exStateC5 : DState :=
  { refs := (none, none)
    objs := (none, some [5])
    idx := 0
    kind := none
    opts := { refs_hint := RefsHint.PreferObjectOnFullLengthHexShaUseRefOtherwise
              object_kind_hint := some ObjectKindHint.Committish }
    err := []
    pfx := (none, some (HashPfx.mk "05"))
    last_call_was_disambiguate_pfx := (false, true) }

/-- Delegate state for the fallback-pass witness: the active side 0 has its
flag set and candidates 5 (a blob, rejected) and 1 (a tag peeling to a
commit, kept) under a committish hint. -/
def exStateC5W : DState :=
  { refs := (none, none)
    objs := (some [5, 1], none)
    idx := 0
    kind := none
    opts := { refs_hint := RefsHint.PreferObjectOnFullLengthHexShaUseRefOtherwise
              object_kind_hint := some ObjectKindHint.Committish }
    err := []
    pfx := (some (HashPfx.mk "0a"), none)
    last_call_was_disambiguate_pfx := (true, false) }

/-- Delegate state for the peel witness: the active side 0 holds the tag 1
and the absent id 9. -/
def exStateC4 : DState :=
  { refs := (none, none)
    objs := (some [1, 9], none)
    idx := 0
    kind := none
    opts := { refs_hint := RefsHint.PreferObjectOnFullLengthHexShaUseRefOtherwise
              object_kind_hint := none }
    err := []
    pfx := (some (HashPfx.mk "0a"), none)
    last_call_was_disambiguate_pfx := (false, false) }

/-- Delegate state for the reference-folding witness: side 0 resolved to a
direct reference on object 7, no candidate sets. -/
def exStateC7 : DState :=
  { refs := (some { name := "main", target := RefTarget.direct 7 }, none)
    objs := (none, none)
    idx := 0
    kind := none
    opts := { refs_hint := RefsHint.PreferObjectOnFullLengthHexShaUseRefOtherwise
              object_kind_hint := none }
    err := []
    pfx := (none, none)
    last_call_was_disambiguate_pfx := (false, false) }

/-- Delegate state for the early-return witness: an error is already
recorded and side 0's reference slot is occupied. -/
def exStateC10 : DState :=
  { refs := (some exRef, none)
    objs := (none, none)
    idx := 0
    kind := none
    opts := { refs_hint := RefsHint.PreferObjectOnFullLengthHexShaUseRefOtherwise
              object_kind_hint := none }
    err := [Error.pfxNotFound (HashPfx.mk "zz")]
    pfx := (none, none)
    last_call_was_disambiguate_pfx := (false, false) }

/-! ## Lemmas about candidate-set operations -/

theorem mem_setRemove (l : List ObjectId) (v x : ObjectId) :
    x ∈ setRemove l v ↔ x ∈ l ∧ x ≠ v := by
  simp [setRemove]

theorem mem_setInsert (l : List ObjectId) (v x : ObjectId) :
    x ∈ setInsert l v ↔ x ∈ l ∨ x = v := by
  unfold setInsert
  split
  · constructor
    · exact Or.inl
    · rintro (h | rfl) <;> assumption
  · simp

theorem mem_removeFold {β : Type} (x : ObjectId) :
    ∀ (ps : List (ObjectId × β)) (acc : List ObjectId),
      x ∈ ps.foldl (fun a pr => setRemove a pr.1) acc ↔
        x ∈ acc ∧ ∀ p ∈ ps, p.1 ≠ x := by
  intro ps
  induction ps with
  | nil => simp
  | cons p rest ih =>
    intro acc
    rw [List.foldl_cons, ih, mem_setRemove]
    constructor
    · rintro ⟨⟨hacc, hne⟩, hrest⟩
      refine ⟨hacc, ?_⟩
      intro q hq
      rcases List.mem_cons.mp hq with rfl | hq'
      · exact fun h => hne h.symm
      · exact hrest q hq'
    · rintro ⟨hacc, hall⟩
      refine ⟨⟨hacc, fun h => hall p (List.mem_cons_self p rest) h.symm⟩, ?_⟩
      exact fun q hq => hall q (List.mem_cons_of_mem p hq)

theorem mem_replaceFold (x : ObjectId) :
    ∀ (reps : List (ObjectId × ObjectId)),
      (∀ p ∈ reps, ∀ q ∈ reps, q.1 = p.2 → q.2 = p.2) →
      ∀ acc : List ObjectId,
        x ∈ reps.foldl (fun a pr => setInsert (setRemove a pr.1) pr.2) acc ↔
          (x ∈ acc ∧ ∀ p ∈ reps, p.1 ≠ x) ∨ ∃ p ∈ reps, p.2 = x := by
  intro reps
  induction reps with
  | nil => simp
  | cons hd rest ih =>
    intro H acc
    have Hrest : ∀ p ∈ rest, ∀ q ∈ rest, q.1 = p.2 → q.2 = p.2 := by
      intro p hp q hq
      exact H p (List.mem_cons_of_mem hd hp) q (List.mem_cons_of_mem hd hq)
    rw [List.foldl_cons, ih Hrest, mem_setInsert, mem_setRemove]
    have key : x = hd.2 → (∃ q ∈ rest, q.1 = x) → ∃ q ∈ rest, q.2 = x := by
      rintro rfl ⟨q, hq, hq1⟩
      exact ⟨q, hq, H hd (List.mem_cons_self hd rest) q (List.mem_cons_of_mem hd hq) hq1⟩
    constructor
    · rintro (⟨hin, hrest⟩ | ⟨p, hp, hp2⟩)
      · rcases hin with ⟨hacc, hne⟩ | heq
        · exact Or.inl ⟨hacc, by
            intro q hq
            rcases List.mem_cons.mp hq with rfl | hq'
            · exact fun h => hne h.symm
            · exact hrest q hq'⟩
        · rcases Classical.em (∃ q ∈ rest, q.1 = x) with hex | hnex
          · obtain ⟨q, hq, hq2⟩ := key heq hex
            exact Or.inr ⟨q, List.mem_cons_of_mem hd hq, hq2⟩
          · exact Or.inr ⟨hd, List.mem_cons_self hd rest, heq.symm⟩
      · exact Or.inr ⟨p, List.mem_cons_of_mem hd hp, hp2⟩
    · rintro (⟨hacc, hall⟩ | ⟨p, hp, hp2⟩)
      · exact Or.inl ⟨Or.inl ⟨hacc, fun h => hall hd (List.mem_cons_self hd rest) h.symm⟩,
          fun q hq => hall q (List.mem_cons_of_mem hd hq)⟩
      · rcases List.mem_cons.mp hp with rfl | hp'
        · rcases Classical.em (∃ q ∈ rest, q.1 = x) with hex | hnex
          · obtain ⟨q, hq, hq2⟩ := key hp2.symm hex
            exact Or.inr ⟨q, hq, hq2⟩
          · exact Or.inl ⟨Or.inr hp2.symm, fun q hq h =>
              hnex ⟨q, hq, h⟩⟩
        · exact Or.inr ⟨p, hp', hp2⟩

theorem length_filterMap_eq_length_iff {α β : Type} (f : α → Option β) :
    ∀ l : List α, ((l.filterMap f).length = l.length) ↔ ∀ a ∈ l, (f a).isSome = true := by
  intro l
  induction l with
  | nil => simp
  | cons a l ih =>
    cases hfa : f a with
    | none =>
      rw [List.filterMap_cons_none hfa]
      simp only [List.length_cons]
      constructor
      · intro h
        have := List.length_filterMap_le f l
        omega
      · intro h
        have := h a (List.mem_cons_self a l)
        rw [hfa] at this
        simp at this
    | some b =>
      rw [List.filterMap_cons_some hfa]
      simp only [List.length_cons, Nat.succ_inj]
      rw [ih]
      constructor
      · intro h c hc
        rcases List.mem_cons.mp hc with rfl | hc'
        · rw [hfa]; rfl
        · exact h c hc'
      · intro h c hc
        exact h c (List.mem_cons_of_mem a hc)

theorem checkErrs_length_eq_iff {β : Type} (check : ObjectId → Except Error β)
    (objs : List ObjectId) :
    ((checkErrs check objs).length = objs.length) ↔
      ∀ o ∈ objs, (check o).isOk = false := by
  unfold checkErrs
  rw [length_filterMap_eq_length_iff]
  constructor
  · intro h o ho
    have := h o ho
    cases hc : check o with
    | ok v => rw [hc] at this; simp at this
    | error e => rfl
  · intro h o ho
    have := h o ho
    cases hc : check o with
    | ok v =>
      rw [hc] at this
      simp [Except.isOk, Except.toBool] at this
    | error e => rfl

theorem mem_checkErrs_fst {β : Type} (check : ObjectId → Except Error β)
    (objs : List ObjectId) (x : ObjectId) :
    (∃ p ∈ checkErrs check objs, p.1 = x) ↔
      x ∈ objs ∧ ∃ e, check x = Except.error e := by
  unfold checkErrs
  constructor
  · rintro ⟨p, hp, rfl⟩
    obtain ⟨o, ho, heq⟩ := List.mem_filterMap.mp hp
    cases hc : check o with
    | ok v => rw [hc] at heq; simp at heq
    | error e =>
      rw [hc] at heq
      simp only [Option.some.injEq] at heq
      cases heq
      exact ⟨ho, e, hc⟩
  · rintro ⟨ho, e, he⟩
    refine ⟨(x, e), List.mem_filterMap.mpr ⟨x, ho, ?_⟩, rfl⟩
    rw [he]

theorem mem_checkReps_fst (check : ObjectId → Except Error ObjectId)
    (objs : List ObjectId) (x : ObjectId) :
    (∃ p ∈ checkReps check objs, p.1 = x) ↔
      x ∈ objs ∧ ∃ r, check x = Except.ok r := by
  unfold checkReps
  constructor
  · rintro ⟨p, hp, rfl⟩
    obtain ⟨o, ho, heq⟩ := List.mem_filterMap.mp hp
    cases hc : check o with
    | error e => rw [hc] at heq; simp at heq
    | ok r =>
      rw [hc] at heq
      simp only [Option.some.injEq] at heq
      cases heq
      exact ⟨ho, r, hc⟩
  · rintro ⟨ho, r, hr⟩
    refine ⟨(x, r), List.mem_filterMap.mpr ⟨x, ho, ?_⟩, rfl⟩
    rw [hr]

theorem mem_checkReps_snd (check : ObjectId → Except Error ObjectId)
    (objs : List ObjectId) (x : ObjectId) :
    (∃ p ∈ checkReps check objs, p.2 = x) ↔
      ∃ o ∈ objs, check o = Except.ok x := by
  unfold checkReps
  constructor
  · rintro ⟨p, hp, rfl⟩
    obtain ⟨o, ho, heq⟩ := List.mem_filterMap.mp hp
    cases hc : check o with
    | error e => rw [hc] at heq; simp at heq
    | ok r =>
      rw [hc] at heq
      simp only [Option.some.injEq] at heq
      cases heq
      exact ⟨o, ho, hc⟩
  · rintro ⟨o, ho, hc⟩
    refine ⟨(o, x), List.mem_filterMap.mpr ⟨o, ho, ?_⟩, rfl⟩
    rw [hc]

/-! ## Lemmas about peeling -/

theorem peelToKind_base (repo : Repository) (fuel : Nat) (oid : ObjectId)
    (o : Obj) (k : Kind) (hk : o.kind = k) :
    peelToKind repo fuel oid o k = Except.ok oid := by
  cases fuel <;> simp [peelToKind, hk]

theorem peelToKind_ok_kind (repo : Repository) :
    ∀ (fuel : Nat) (oid : ObjectId) (o : Obj) (k : Kind) (r : ObjectId),
      repo.findObject oid = some o →
      peelToKind repo fuel oid o k = Except.ok r →
      ∃ o2, repo.findObject r = some o2 ∧ o2.kind = k := by
  intro fuel
  induction fuel with
  | zero =>
    intro oid o k r hfind hpeel
    rw [peelToKind] at hpeel
    split at hpeel
    · cases hpeel
      exact ⟨o, hfind, by assumption⟩
    · cases hpeel
  | succ fuel ih =>
    intro oid o k r hfind hpeel
    rw [peelToKind] at hpeel
    split at hpeel
    · cases hpeel
      exact ⟨o, hfind, by assumption⟩
    · split at hpeel
      · split at hpeel
        · cases hpeel
        · exact ih _ _ _ _ (by assumption) hpeel
      · split at hpeel
        · split at hpeel
          · cases hpeel
          · exact ih _ _ _ _ (by assumption) hpeel
        · cases hpeel
      · cases hpeel

theorem peel_idem (repo : Repository) (fuel : Nat) (o : ObjectId) (k : Kind)
    (r : ObjectId) (h : peel repo fuel o k = Except.ok r) :
    peel repo fuel r k = Except.ok r := by
  unfold peel at h ⊢
  rcases hfo : repo.findObject o with _ | ob
  · rw [hfo] at h
    simp at h
  · rw [hfo] at h
    simp only at h
    obtain ⟨o2, hfr, hk⟩ := peelToKind_ok_kind repo fuel o ob k r hfo h
    rw [hfr]
    simp only
    exact peelToKind_base repo fuel r o2 k hk

theorem peelCheck_idem (repo : Repository) (fuel : Nat) (pk : PeelTo)
    (o r : ObjectId) (h : peelCheck repo fuel pk o = Except.ok r) :
    peelCheck repo fuel pk r = Except.ok r := by
  cases pk with
  | ValidObject =>
    unfold peelCheck at h ⊢
    rcases hfo : repo.findObject o with _ | ob <;> rw [hfo] at h
    · cases h
    · cases h
      rw [hfo]
  | ObjectKind k => exact peel_idem repo fuel o k r h
  | Path p => unfold peelCheck at h; cases h
  | RecursiveTagObject => unfold peelCheck at h; cases h

/-! ## Claim theorems -/

/-- Claim C1, counterexample: for the concrete recorded errors
e1 = prefix-not-found "aa", e2 = prefix-not-found "bb",
e3 = prefix-not-found "cc" (oldest first), the aggregated chain's outermost
displayed message equals e1's message, which differs from e3's message — so
the claim's "outermost displayed message equals e3's message" is false. -/
theorem c1_counterexample :
    (Error.from_errors [Error.pfxNotFound (HashPfx.mk "aa"),
        Error.pfxNotFound (HashPfx.mk "bb"),
        Error.pfxNotFound (HashPfx.mk "cc")]).map Error.message
      = some (Error.pfxNotFound (HashPfx.mk "aa")).message
    ∧ (Error.pfxNotFound (HashPfx.mk "aa")).message
      ≠ (Error.pfxNotFound (HashPfx.mk "cc")).message := by
  exact ⟨rfl, by decide⟩

/-- Claim C1 (amended): for every list of recorded errors [e1, e2, e3]
(oldest first), `Error.from_errors` produces a chain of two-field
(current, next) values nested oldest-first: the outermost value's displayed
message equals e1's message, and walking the chain via `next` recovers e2
and then e3, in that order (e3's value being the innermost link). -/
theorem c1_from_errors_chain (e1 e2 e3 : Error) :
    Error.from_errors [e1, e2, e3]
      = some (Error.multi e1 (some (Error.multi e2 (some (Error.multi e3 none)))))
    ∧ (Error.from_errors [e1, e2, e3]).map Error.message = some e1.message := by
  exact ⟨rfl, rfl⟩

/-- Claim C9: for every single-element error list [e], the error aggregator
`Error.from_errors` returns e itself unchanged, not wrapped in a
multi-error chain. -/
theorem c9_from_errors_singleton (e : Error) :
    Error.from_errors [e] = some e := rfl

/-- Claim C3 (code bug): with two candidates [1, 2] for the recorded prefix
"ab" and no errors accumulated, final reduction fails with an
ambiguous-prefix error that carries the prefix but an empty diagnostic-info
list: `Error::ambiguous` discards its candidates and installs no
per-candidate info, contradicting the claim (and the error's own display
format, which renders one line per info entry). -/
theorem c3_ambiguous_info_empty :
    zero_or_one_objects_or_ambguity_err ((some [1, 2], none))
        ((some (HashPfx.mk "ab"), none)) [] repoTrivial
      = some (Except.error (Error.ambiguousPfx (HashPfx.mk "ab") []))
    ∧ Error.ambiguous [1, 2] (HashPfx.mk "ab") repoTrivial
      = Error.ambiguousPfx (HashPfx.mk "ab") [] := by
  exact ⟨rfl, rfl⟩

/-- Claim C8: for every object id absent from the object database and every
target kind, both the peel helper (used by `peel_until`) and the strict
kind check (used by the fallback pass) fail with the object-lookup
(`FindObject`) error for that id — never with a kind-mismatch error. -/
theorem c8_missing_object_is_find_error (repo : Repository) (fuel : Nat)
    (oid : ObjectId) (k : Kind) (h : repo.findObject oid = none) :
    peel repo fuel oid k = Except.error (Error.findObject (OdbError.notFound oid))
    ∧ require_object_kind repo oid k
        = Except.error (Error.findObject (OdbError.notFound oid)) := by
  unfold peel require_object_kind
  rw [h]
  exact ⟨rfl, rfl⟩

/-- Witness for C8 at the empty repository, id 5 and kind Commit. -/
theorem c8_missing_object_is_find_error_witness :
    peel repoTrivial 3 5 Kind.Commit
      = Except.error (Error.findObject (OdbError.notFound 5))
    ∧ require_object_kind repoTrivial 5 Kind.Commit
      = Except.error (Error.findObject (OdbError.notFound 5)) :=
  c8_missing_object_is_find_error repoTrivial 3 5 Kind.Commit rfl

/-- Claim C10: with a non-empty error log and an occupied reference slot on
the active side, `find_ref` returns failure immediately: no reference-store
lookup happens (the result is a closed form not involving the repository),
no error is appended, and the only state change is the cleared
disambiguation flag; moreover the fatal double-set assertion (`panicked`)
is reachable only with an empty error log. -/
theorem c10_find_ref_early_return (repo : Repository) (name : String)
    (s : DState) (h1 : s.err ≠ []) (h2 : (getS s.refs s.idx).isSome = true) :
    find_ref repo name s = (COutcome.failed, unset_disambiguate_call s)
    ∧ ∀ (repo2 : Repository) (name2 : String) (s2 : DState),
        (find_ref repo2 name2 s2).1 = COutcome.panicked → s2.err = [] := by
  constructor
  · have hne : s.err.isEmpty = false := by
      cases herr : s.err with
      | nil => exact absurd herr h1
      | cons a l => rfl
    simp [find_ref, unset_disambiguate_call, hne, h2]
  · intro repo2 name2 s2 hp
    unfold find_ref at hp
    dsimp only [unset_disambiguate_call] at hp
    split at hp
    · simp at hp
    · rename_i hcond
      split at hp
      · split at hp
        · rename_i hfind hsome
          simp only [Bool.and_eq_true, Bool.not_eq_eq_eq_not, Bool.not_true,
            not_and] at hcond
          cases herr : s2.err with
          | nil => rfl
          | cons a l =>
            exfalso
            apply hcond
            · rw [herr]; rfl
            · exact hsome
        · simp at hp
      · simp at hp

/-- Witness for C10: with one recorded error and side 0's reference slot
occupied, `find_ref` on the empty repository fails early with only the
disambiguation flag cleared. -/
theorem c10_find_ref_early_return_witness :
    find_ref repoTrivial "x" exStateC10
      = (COutcome.failed, unset_disambiguate_call exStateC10) :=
  (c10_find_ref_early_return repoTrivial "x" exStateC10
    (List.cons_ne_nil _ _) (by decide)).1

/-- Claim C7: reference folding — whenever it completes (no symbolic
reference was hit), every side holding a reference with a direct target id
and no candidate set gains exactly the one-element set of that id; sides
with no reference, or with a candidate set already present, keep their
candidate sets, and every other delegate field is untouched. -/
theorem c7_reference_folding (s s' : DState)
    (h : follow_refs_to_objects_if_needed s = some s') :
    (∀ i : Fin 2, ∀ r : Reference, ∀ t : ObjectId,
        getS s.refs i = some r → r.target = RefTarget.direct t →
        getS s.objs i = none → getS s'.objs i = some [t])
    ∧ (∀ i : Fin 2, (getS s.refs i = none ∨ (getS s.objs i).isSome = true) →
        getS s'.objs i = getS s.objs i)
    ∧ s'.refs = s.refs ∧ s'.err = s.err ∧ s'.idx = s.idx ∧ s'.pfx = s.pfx
    ∧ s'.kind = s.kind ∧ s'.opts = s.opts
    ∧ s'.last_call_was_disambiguate_pfx = s.last_call_was_disambiguate_pfx := by
  unfold follow_refs_to_objects_if_needed at h
  rcases h0 : followSide s.refs.1 s.objs.1 with _ | o0 <;> rw [h0] at h
  · cases h
  · rcases h1 : followSide s.refs.2 s.objs.2 with _ | o1 <;> rw [h1] at h
    · cases h
    · simp only [Option.some.injEq] at h
      subst h
      have side : ∀ (r : Option Reference) (obj : Option (List ObjectId))
          (res : Option (List ObjectId)), followSide r obj = some res →
          (∀ ref t, r = some ref → ref.target = RefTarget.direct t →
            obj = none → res = some [t])
          ∧ ((r = none ∨ obj.isSome = true) → res = obj) := by
        intro r obj res hside
        constructor
        · rintro ref t rfl htgt rfl
          unfold followSide at hside
          dsimp only at hside
          rw [htgt] at hside
          dsimp only [RefTarget.tryId] at hside
          simp only [Option.some.injEq] at hside
          rw [← hside]
          simp [setInsert]
        · rintro (rfl | hobj)
          · cases obj <;> simp only [followSide, Option.some.injEq] at hside <;>
              exact hside.symm
          · rcases obj with _ | o
            · simp at hobj
            · cases r <;> simp only [followSide, Option.some.injEq] at hside <;>
                exact hside.symm
      refine ⟨?_, ?_, rfl, rfl, rfl, rfl, rfl, rfl, rfl⟩
      · intro i r t hr htgt hobj
        fin_cases i
        · exact (side s.refs.1 s.objs.1 o0 h0).1 r t hr htgt hobj
        · exact (side s.refs.2 s.objs.2 o1 h1).1 r t hr htgt hobj
      · intro i hcase
        fin_cases i
        · exact (side s.refs.1 s.objs.1 o0 h0).2 hcase
        · exact (side s.refs.2 s.objs.2 o1 h1).2 hcase

/-- Witness for C7: side 0 resolved to a direct reference on object 7 and no
candidate set; folding installs exactly the candidate set containing 7 and
leaves side 1 untouched. -/
theorem c7_reference_folding_witness :
    getS ({ exStateC7 with objs := (some [7], none) } : DState).objs 0 = some [7]
    ∧ getS ({ exStateC7 with objs := (some [7], none) } : DState).objs 1
      = getS exStateC7.objs 1 :=
  ⟨(c7_reference_folding exStateC7 { exStateC7 with objs := (some [7], none) }
      rfl).1 0 { name := "main", target := RefTarget.direct 7 } 7 rfl rfl rfl,
   (c7_reference_folding exStateC7 { exStateC7 with objs := (some [7], none) }
      rfl).2.1 1 (Or.inl rfl)⟩

/-- Claim C2: under the default policy, when the prefix lookup matched one
or more objects: a full-hash-width prefix keeps the match set as the side's
candidate set with no reference-store lookup (the outcome is independent of
the reference store); a shorter prefix is looked up as a literal reference
name — if found, only the reference is kept and the object interpretation
is discarded (the candidate set stays absent), and if not found the object
candidate set is kept. -/
theorem c2_default_policy (repo : Repository) (p : HashPfx) (s : DState)
    (cs : List ObjectId)
    (hpol : s.opts.refs_hint = RefsHint.PreferObjectOnFullLengthHexShaUseRefOtherwise)
    (hlk : repo.lookupPfx p = PfxLookup.matches cs)
    (hcs : cs ≠ [])
    (hobj : getS s.objs s.idx = none) :
    (p.hexLen = repo.hashHexLen →
      disambiguate_pfx repo p s
        = (COutcome.ok,
            { pfxTouched p s with objs := setS (pfxTouched p s).objs s.idx (some cs) })
      ∧ ∀ f, disambiguate_pfx { repo with refsFind := f } p s
          = disambiguate_pfx repo p s)
    ∧ (p.hexLen ≠ repo.hashHexLen →
        (∀ r, repo.refsFind p.toText = some r → getS s.refs s.idx = none →
          disambiguate_pfx repo p s
            = (COutcome.ok,
                { pfxTouched p s with refs := setS (pfxTouched p s).refs s.idx (some r) })
          ∧ getS (disambiguate_pfx repo p s).2.objs s.idx = none)
        ∧ (repo.refsFind p.toText = none →
            disambiguate_pfx repo p s
              = (COutcome.ok,
                  { pfxTouched p s with objs := setS (pfxTouched p s).objs s.idx (some cs) }))) := by
  obtain ⟨c, cs', rfl⟩ := List.exists_cons_of_ne_nil hcs
  constructor
  · intro hfull
    constructor
    · simp [disambiguate_pfx, pfxTouched, hlk, hobj, hpol, hfull]
    · intro f
      simp [disambiguate_pfx, pfxTouched, hlk, hobj, hpol, hfull]
  · intro hne
    constructor
    · intro r hr href
      have heq : disambiguate_pfx repo p s
          = (COutcome.ok,
              { pfxTouched p s with
                refs := setS (pfxTouched p s).refs s.idx (some r) }) := by
        simp [disambiguate_pfx, disambiguatePfxRefLookup, pfxTouched, hlk, hobj,
          hpol, hne, hr, href]
      refine ⟨heq, ?_⟩
      rw [heq]
      exact hobj
    · intro hr
      simp [disambiguate_pfx, disambiguatePfxRefLookup, pfxTouched, hlk, hobj,
        hpol, hne, hr]

/-- Witness for C2: in a repository of hash width 4 where every prefix
matches object 3 and the name "ab" is a reference, the full-width prefix
"abcd" is kept as the object candidate set, while the short prefix "ab"
resolves to the reference only. -/
theorem c2_default_policy_witness :
    disambiguate_pfx exRepoC2 (HashPfx.mk "abcd") exStateC2
      = (COutcome.ok,
          { pfxTouched (HashPfx.mk "abcd") exStateC2 with
            objs := setS (pfxTouched (HashPfx.mk "abcd") exStateC2).objs
              exStateC2.idx (some [3]) })
    ∧ disambiguate_pfx exRepoC2 (HashPfx.mk "ab") exStateC2
      = (COutcome.ok,
          { pfxTouched (HashPfx.mk "ab") exStateC2 with
            refs := setS (pfxTouched (HashPfx.mk "ab") exStateC2).refs
              exStateC2.idx (some exRef) }) :=
  ⟨((c2_default_policy exRepoC2 (HashPfx.mk "abcd") exStateC2 [3] rfl rfl
      (by decide) rfl).1 (by decide)).1,
   (((c2_default_policy exRepoC2 (HashPfx.mk "ab") exStateC2 [3] rfl rfl
      (by decide) rfl).2 (by decide)).1 exRef (by decide) rfl).1⟩

/-- Claim C6: under the fail-on-ambiguity policy, when the prefix lookup
matched one or more objects and the literal prefix also names a reference,
the callback stores the reference in the side's slot, appends both the
ambiguous-ref-and-object error and the ambiguous-prefix error, and fails;
when no such reference exists, the object candidate set is kept and the
callback succeeds. -/
theorem c6_fail_policy (repo : Repository) (p : HashPfx) (s : DState)
    (cs : List ObjectId)
    (hpol : s.opts.refs_hint = RefsHint.Fail)
    (hlk : repo.lookupPfx p = PfxLookup.matches cs)
    (hobj : getS s.objs s.idx = none)
    (href : getS s.refs s.idx = none) :
    (∀ r, repo.refsFind p.toText = some r →
      disambiguate_pfx repo p s
        = (COutcome.failed,
            { pfxTouched p s with
              refs := setS (pfxTouched p s).refs s.idx (some r),
              err := s.err ++ [Error.ambiguousRefAndObject p r,
                Error.ambiguousPfx p []] }))
    ∧ (repo.refsFind p.toText = none →
        disambiguate_pfx repo p s
          = (COutcome.ok,
              { pfxTouched p s with
                objs := setS (pfxTouched p s).objs s.idx (some cs) })) := by
  constructor
  · intro r hr
    simp [disambiguate_pfx, disambiguatePfxRefLookup, pfxTouched, hlk, hobj,
      hpol, hr, href]
  · intro hr
    simp [disambiguate_pfx, disambiguatePfxRefLookup, pfxTouched, hlk, hobj,
      hpol, hr]

/-- Witness for C6: under the fail policy, prefix "ab" matching object 3
while "ab" also names a reference stores the reference, records both
errors, and fails. -/
theorem c6_fail_policy_witness :
    disambiguate_pfx exRepoC2 (HashPfx.mk "ab") exStateC6
      = (COutcome.failed,
          { pfxTouched (HashPfx.mk "ab") exStateC6 with
            refs := setS (pfxTouched (HashPfx.mk "ab") exStateC6).refs
              exStateC6.idx (some exRef),
            err := exStateC6.err ++ [Error.ambiguousRefAndObject (HashPfx.mk "ab") exRef,
              Error.ambiguousPfx (HashPfx.mk "ab") []] }) :=
  (c6_fail_policy exRepoC2 (HashPfx.mk "ab") exStateC6 [3] rfl rfl rfl rfl).1
    exRef (by decide)

theorem mem_removeFold_checkErrs {β : Type} (check : ObjectId → Except Error β)
    (objs : List ObjectId) (x : ObjectId) :
    x ∈ (checkErrs check objs).foldl (fun a pr => setRemove a pr.1) objs ↔
      x ∈ objs ∧ (check x).isOk = true := by
  rw [mem_removeFold]
  constructor
  · rintro ⟨hx, hall⟩
    refine ⟨hx, ?_⟩
    cases hc : check x with
    | ok v => rfl
    | error e =>
      exfalso
      obtain ⟨p, hp, hp1⟩ :=
        (mem_checkErrs_fst check objs x).mpr ⟨hx, e, hc⟩
      exact hall p hp hp1
  · rintro ⟨hx, hok⟩
    refine ⟨hx, ?_⟩
    intro p hp hp1
    obtain ⟨_, e, he⟩ := (mem_checkErrs_fst check objs x).mp ⟨p, hp, hp1⟩
    rw [he] at hok
    simp [Except.isOk, Except.toBool] at hok

/-- Claim C5, counterexample: the fallback pass reads only the active side.
Here the active side is 0, while side 1 still has its disambiguation flag
set, a committish hint is configured, and side 1's single candidate 5 (a
blob) fails the committish check — the claim then requires all of side 1's
candidate errors to be propagated, yet the pass returns the state unchanged
and records no error. -/
theorem c5_counterexample :
    disambiguate_objects_by_fallback_hint exRepo 10 exStateC5 = exStateC5
    ∧ getS exStateC5.last_call_was_disambiguate_pfx 1 = true
    ∧ exStateC5.opts.object_kind_hint = some ObjectKindHint.Committish
    ∧ getS exStateC5.objs 1 = some [5]
    ∧ (hintCheck exRepo 10 ObjectKindHint.Committish 5).isOk = false
    ∧ (disambiguate_objects_by_fallback_hint exRepo 10 exStateC5).err = [] :=
  ⟨rfl, rfl, rfl, rfl, rfl, rfl⟩

/-- Claim C5 (amended): the fallback kind disambiguation pass, run at
`done()`, applies only to the currently active side — not to both sides —
and only if that side's disambiguation flag is still true and an
`ObjectKindHint` is configured; committish/treeish hints keep a candidate
iff it peels to a commit/tree, commit/tree/blob hints keep a candidate iff
its own kind equals the hint exactly; failing candidates are removed and
their errors recorded, unless all candidates fail, in which case all their
errors are propagated and the set is left unchanged; with no hint
configured, or with the flag cleared, candidate sets and error log are
unchanged. -/
theorem c5_fallback_hint (repo : Repository) (fuel : Nat) (s : DState)
    (objs : List ObjectId) (h : ObjectKindHint)
    (hflag : getS s.last_call_was_disambiguate_pfx s.idx = true)
    (hobjs : getS s.objs s.idx = some objs)
    (hhint : s.opts.object_kind_hint = some h) :
    ((∀ o ∈ objs, (hintCheck repo fuel h o).isOk = false) →
      disambiguate_objects_by_fallback_hint repo fuel s
        = { unset_disambiguate_call s with
            err := s.err ++ (checkErrs (hintCheck repo fuel h) objs).map Prod.snd })
    ∧ ((∃ o ∈ objs, (hintCheck repo fuel h o).isOk = true) →
        ∃ final,
          disambiguate_objects_by_fallback_hint repo fuel s
            = { unset_disambiguate_call s with
                objs := setS s.objs s.idx (some final),
                err := s.err ++ (checkErrs (hintCheck repo fuel h) objs).map Prod.snd }
          ∧ ∀ x, x ∈ final ↔ x ∈ objs ∧ (hintCheck repo fuel h x).isOk = true)
    ∧ (∀ s2 : DState, getS s2.last_call_was_disambiguate_pfx s2.idx = false →
        disambiguate_objects_by_fallback_hint repo fuel s2 = s2)
    ∧ (∀ s2 : DState, s2.opts.object_kind_hint = none →
        (disambiguate_objects_by_fallback_hint repo fuel s2).objs = s2.objs
        ∧ (disambiguate_objects_by_fallback_hint repo fuel s2).err = s2.err) := by
  refine ⟨?_, ?_, ?_, ?_⟩
  · intro hall
    have hlen : (checkErrs (hintCheck repo fuel h) objs).length = objs.length :=
      (checkErrs_length_eq_iff _ _).mpr hall
    simp only [disambiguate_objects_by_fallback_hint, unset_disambiguate_call,
      hflag, if_true, hobjs, hhint]
    split
    · rfl
    · rename_i hcond
      exact absurd hlen hcond
  · intro hex
    have hlen : ¬(checkErrs (hintCheck repo fuel h) objs).length = objs.length := by
      rw [checkErrs_length_eq_iff]
      intro hall
      obtain ⟨o, ho, hok⟩ := hex
      rw [hall o ho] at hok
      cases hok
    refine ⟨(checkErrs (hintCheck repo fuel h) objs).foldl
      (fun a pr => setRemove a pr.1) objs, ?_, ?_⟩
    · simp only [disambiguate_objects_by_fallback_hint, unset_disambiguate_call,
        hflag, if_true, hobjs, hhint]
      split
      · rename_i hcond
        exact absurd hcond hlen
      · rfl
    · intro x
      exact mem_removeFold_checkErrs (hintCheck repo fuel h) objs x
  · intro s2 hflag2
    simp only [disambiguate_objects_by_fallback_hint, hflag2]
    rfl
  · intro s2 hh2
    by_cases hflag2 : getS s2.last_call_was_disambiguate_pfx s2.idx = true
    · simp only [disambiguate_objects_by_fallback_hint, unset_disambiguate_call,
        hflag2, if_true, hh2]
      cases hobjs2 : getS s2.objs s2.idx <;> simp [hobjs2]
    · have hflag2f : getS s2.last_call_was_disambiguate_pfx s2.idx = false := by
        cases hb : getS s2.last_call_was_disambiguate_pfx s2.idx
        · rfl
        · exact absurd hb hflag2
      simp only [disambiguate_objects_by_fallback_hint, hflag2f]
      exact ⟨rfl, rfl⟩

/-- Witness for C5 (amended): on the active side 0 with flag set, committish
hint and candidates [5, 1] (a blob and a tag on a commit), the pass keeps
exactly the candidates peeling to a commit. -/
theorem c5_fallback_hint_witness :
    ∃ final,
      disambiguate_objects_by_fallback_hint exRepo 10 exStateC5W
        = { unset_disambiguate_call exStateC5W with
            objs := setS exStateC5W.objs exStateC5W.idx (some final),
            err := exStateC5W.err ++ (checkErrs
              (hintCheck exRepo 10 ObjectKindHint.Committish) [5, 1]).map Prod.snd }
      ∧ ∀ x, x ∈ final ↔ x ∈ [5, 1]
          ∧ (hintCheck exRepo 10 ObjectKindHint.Committish x).isOk = true :=
  (c5_fallback_hint exRepo 10 exStateC5W [5, 1] ObjectKindHint.Committish
    rfl rfl rfl).2.1 ⟨1, by decide, by decide⟩

theorem isOk_iff_exists_ok {ε α : Type} (e : Except ε α) :
    e.isOk = true ↔ ∃ a, e = Except.ok a := by
  cases e <;> simp [Except.isOk, Except.toBool]

theorem mem_checkReps_eq (check : ObjectId → Except Error ObjectId)
    (objs : List ObjectId) (p : ObjectId × ObjectId)
    (hp : p ∈ checkReps check objs) : check p.1 = Except.ok p.2 := by
  unfold checkReps at hp
  obtain ⟨o, ho, heq⟩ := List.mem_filterMap.mp hp
  cases hc : check o with
  | error e => rw [hc] at heq; simp at heq
  | ok r =>
    rw [hc] at heq
    simp only [Option.some.injEq] at heq
    rw [← heq]
    exact hc

theorem checkReps_coherent (repo : Repository) (fuel : Nat) (pk : PeelTo)
    (objs : List ObjectId) :
    ∀ p ∈ checkReps (peelCheck repo fuel pk) objs,
      ∀ q ∈ checkReps (peelCheck repo fuel pk) objs,
        q.1 = p.2 → q.2 = p.2 := by
  intro p hp q hq hq1
  have hcp := mem_checkReps_eq _ _ _ hp
  have hcq := mem_checkReps_eq _ _ _ hq
  have hidem := peelCheck_idem repo fuel pk p.1 p.2 hcp
  rw [hq1] at hcq
  rw [hcq] at hidem
  simp only [Except.ok.injEq] at hidem
  exact hidem

/-- Claim C4: in `peel_until`, once reference folding has completed and the
active side holds a non-empty candidate set: if every candidate fails the
peel or existence check, all recorded per-candidate errors are appended to
the error log in candidate order, the candidate set is left unchanged, and
the callback fails; if at least one candidate survives, the callback
succeeds, the failing candidates' errors are appended, and the final
candidate set holds exactly the check results of the surviving candidates
(each peeled replacement standing in place of its original). -/
theorem c4_peel_until (repo : Repository) (fuel : Nat) (pk : PeelTo)
    (s s1 : DState) (objs : List ObjectId)
    (hpk : pk = PeelTo.ValidObject ∨ ∃ k, pk = PeelTo.ObjectKind k)
    (hfold : follow_refs_to_objects_if_needed (unset_disambiguate_call s) = some s1)
    (hobjs : getS s1.objs s1.idx = some objs)
    (hne : objs ≠ []) :
    ((∀ o ∈ objs, (peelCheck repo fuel pk o).isOk = false) →
      peel_until repo fuel pk s
        = (COutcome.failed,
            { s1 with
              err := s1.err ++ (checkErrs (peelCheck repo fuel pk) objs).map Prod.snd }))
    ∧ ((∃ o ∈ objs, (peelCheck repo fuel pk o).isOk = true) →
        ∃ final,
          peel_until repo fuel pk s
            = (COutcome.ok,
                { s1 with
                  objs := setS s1.objs s1.idx (some final),
                  err := s1.err ++ (checkErrs (peelCheck repo fuel pk) objs).map Prod.snd })
          ∧ ∀ x, x ∈ final ↔ ∃ o ∈ objs, peelCheck repo fuel pk o = Except.ok x) := by
  rcases hpk with rfl | ⟨k, rfl⟩
  · have hred : peel_until repo fuel PeelTo.ValidObject s
        = peelFinish (checkErrs (peelCheck repo fuel PeelTo.ValidObject) objs)
            [] objs s1 := by
      simp only [peel_until, hfold, hobjs]
    constructor
    · intro hall
      have hlen := (checkErrs_length_eq_iff (peelCheck repo fuel PeelTo.ValidObject) objs).mpr hall
      rw [hred]
      unfold peelFinish
      rw [if_pos hlen]
    · intro hex
      have hlen : ¬(checkErrs (peelCheck repo fuel PeelTo.ValidObject) objs).length
          = objs.length := by
        rw [checkErrs_length_eq_iff]
        intro hall
        obtain ⟨o, ho, hok⟩ := hex
        rw [hall o ho] at hok
        cases hok
      rw [hred]
      unfold peelFinish
      rw [if_neg hlen]
      refine ⟨_, rfl, ?_⟩
      intro x
      simp only [List.foldl_nil]
      rw [mem_removeFold_checkErrs]
      constructor
      · rintro ⟨hx, hok⟩
        obtain ⟨r, hr⟩ := (isOk_iff_exists_ok _).mp hok
        have hrx : r = x := by
          unfold peelCheck at hr
          rcases hfo : repo.findObject x with _ | ob <;> rw [hfo] at hr
          · cases hr
          · cases hr; rfl
        exact ⟨x, hx, by rw [hr, hrx]⟩
      · rintro ⟨o, ho, hok⟩
        have hxo : x = o := by
          unfold peelCheck at hok
          rcases hfo : repo.findObject o with _ | ob <;> rw [hfo] at hok
          · cases hok
          · cases hok; rfl
        subst hxo
        exact ⟨ho, (isOk_iff_exists_ok _).mpr ⟨x, hok⟩⟩
  · have hred : peel_until repo fuel (PeelTo.ObjectKind k) s
        = peelFinish (checkErrs (peelCheck repo fuel (PeelTo.ObjectKind k)) objs)
            (checkReps (peelCheck repo fuel (PeelTo.ObjectKind k)) objs) objs s1 := by
      simp only [peel_until, hfold, hobjs]
    constructor
    · intro hall
      have hlen := (checkErrs_length_eq_iff
        (peelCheck repo fuel (PeelTo.ObjectKind k)) objs).mpr hall
      rw [hred]
      unfold peelFinish
      rw [if_pos hlen]
    · intro hex
      have hlen : ¬(checkErrs (peelCheck repo fuel (PeelTo.ObjectKind k)) objs).length
          = objs.length := by
        rw [checkErrs_length_eq_iff]
        intro hall
        obtain ⟨o, ho, hok⟩ := hex
        rw [hall o ho] at hok
        cases hok
      rw [hred]
      unfold peelFinish
      rw [if_neg hlen]
      refine ⟨_, rfl, ?_⟩
      intro x
      rw [mem_replaceFold x (checkReps (peelCheck repo fuel (PeelTo.ObjectKind k)) objs)
        (checkReps_coherent repo fuel (PeelTo.ObjectKind k) objs)]
      rw [mem_removeFold_checkErrs]
      rw [mem_checkReps_snd]
      constructor
      · rintro (⟨⟨hx, hok⟩, hall⟩ | hsnd)
        · exfalso
          obtain ⟨r, hr⟩ := (isOk_iff_exists_ok _).mp hok
          obtain ⟨p, hp, hp1⟩ := (mem_checkReps_fst
            (peelCheck repo fuel (PeelTo.ObjectKind k)) objs x).mpr ⟨hx, r, hr⟩
          exact hall p hp hp1
        · exact hsnd
      · intro hsnd
        exact Or.inr hsnd

/-- Witness for C4: the active side holds the tag 1 (which peels to commit
2) and the absent id 9; peeling to a commit keeps exactly the peeled id 2
and records 9's lookup error. -/
theorem c4_peel_until_witness :
    ∃ final,
      peel_until exRepo 10 (PeelTo.ObjectKind Kind.Commit) exStateC4
        = (COutcome.ok,
            { exStateC4 with
              objs := setS exStateC4.objs exStateC4.idx (some final),
              err := exStateC4.err ++ (checkErrs
                (peelCheck exRepo 10 (PeelTo.ObjectKind Kind.Commit)) [1, 9]).map Prod.snd })
      ∧ ∀ x, x ∈ final ↔ ∃ o ∈ [1, 9],
          peelCheck exRepo 10 (PeelTo.ObjectKind Kind.Commit) o = Except.ok x :=
  (c4_peel_until exRepo 10 (PeelTo.ObjectKind Kind.Commit) exStateC4 exStateC4
    [1, 9] (Or.inr ⟨Kind.Commit, rfl⟩) rfl rfl (by decide)).2
    ⟨1, by decide, by decide⟩

end RevParse
